import Mathlib

/-!
Verification of the archive merge-and-sync engine in upload_to_dropbox.py.

The embedding models, from the source:
- the tar-entry data model and the rebuild-with-replace merge in
  DropboxUploader.update_master_file (lines 85-135);
- the filesystem effects of that merge: the .tar.gz -> .tgz rename in
  _convert_to_tgz_if_needed (lines 76-83), the scratch-file rebuild for an
  existing master versus the direct write of a fresh master;
- the upload dispatch and session loop in DropboxUploader.upload_file
  (lines 137-181), including the unresolved name datetime at lines 155 and
  165 (the module imports os, glob, tarfile, logging, tempfile, sys, time,
  dropbox, ApiError and AuthError, but not datetime or timezone);
- the error classification in download_master_file (lines 51-67).
-/

namespace SplunkUpload

/-- One member of the master tar archive: its name inside the archive, its
content bytes, and the metadata fields the merge is required to preserve
(permission mode and modified time), as carried by a tarfile member header. -/
structure Entry where
  name : String
  content : List Nat
  mode : Nat
  mtime : Nat
deriving DecidableEq, Repr

/-- Archive-level semantics of DropboxUploader.update_master_file
(lines 96-135).  Existing master (lines 100-114): every member of the old tar
whose name differs from the new arcname is copied verbatim
(addfile(member, fobj), line 111), members whose name equals the arcname are
skipped (lines 107-109), then the new file is appended (line 114).  Absent
master (lines 126-131): a fresh archive holding just the new entry. -/
def update_master_file (existing : Option (List Entry)) (e : Entry) : List Entry :=
  match existing with
  | some old => old.filter (fun m => m.name != e.name) ++ [e]
  | none => [e]

/-- Names bound at module level by the import statements of
upload_to_dropbox.py (lines 1-9). -/
def importedNames : List String :=
  ["os", "glob", "tarfile", "logging", "tempfile", "sys", "time",
   "dropbox", "ApiError", "AuthError"]

/-- Whether a global name resolves in the module (a lookup of a name outside
this list raises NameError at run time). -/
def nameInScope (s : String) : Bool := importedNames.contains s

/-- CHUNK_SIZE = 8 * 1024 * 1024 (line 139): both the single-shot threshold
and the fixed session chunk size. -/
def CHUNK_SIZE : Nat := 8 * 1024 * 1024

/-- A remote call issued by upload_file, with the number of payload bytes it
carries (and, for appends, the cursor offset supplied). -/
inductive ApiCall where
  | filesUpload (nbytes : Nat)
  | sessionStart (nbytes : Nat)
  | sessionAppend (nbytes : Nat) (offset : Nat)
  | sessionFinish (nbytes : Nat)
deriving DecidableEq, Repr

/-- The two transfer strategies of upload_file. -/
inductive UploadPath where
  | singleShot
  | session
deriving DecidableEq, Repr

/-- The dispatch test at line 150: file_size <= CHUNK_SIZE selects the single
whole-object put, anything larger the session protocol. -/
def upload_path (fileSize : Nat) : UploadPath :=
  if fileSize ≤ CHUNK_SIZE then UploadPath.singleShot else UploadPath.session

/-- The session loop of lines 167-173: while f.tell() < file_size, either
finish with the remaining bytes when at most one chunk is left (line 170;
f.read(CHUNK_SIZE) then returns exactly the remaining bytes), or append one
full chunk at the current cursor offset and advance (lines 172-173). -/
def sessionLoop (fileSize offset : Nat) : List ApiCall :=
  if _h : offset < fileSize then
    if fileSize - offset ≤ CHUNK_SIZE then
      [ApiCall.sessionFinish (fileSize - offset)]
    else
      ApiCall.sessionAppend CHUNK_SIZE offset :: sessionLoop fileSize (offset + CHUNK_SIZE)
  else []
termination_by fileSize - offset
decreasing_by
  have hc : 0 < CHUNK_SIZE := by decide
  omega

/-- Model of DropboxUploader.upload_file (lines 148-181) on a master file of
the given size: the remote calls it issues and the Bool it returns.  On the
single-shot branch the arguments of files_upload are evaluated left to right,
so the lookup of the unimported name datetime (line 155) raises NameError
before the put is issued; on the session branch files_upload_session_start has
already sent the first chunk (line 158) when the CommitInfo construction
(line 165) raises the same NameError.  Both exceptions reach the blanket
handler at lines 179-181, which returns False. -/
def upload_file (fileSize : Nat) : List ApiCall × Bool :=
  match upload_path fileSize with
  | UploadPath.singleShot =>
      if nameInScope "datetime" then ([ApiCall.filesUpload fileSize], true)
      else ([], false)
  | UploadPath.session =>
      if nameInScope "datetime" then
        (ApiCall.sessionStart CHUNK_SIZE :: sessionLoop fileSize CHUNK_SIZE, true)
      else ([ApiCall.sessionStart CHUNK_SIZE], false)

/-- Payload bytes carried by one remote call. -/
def chunkBytes : ApiCall → Nat
  | ApiCall.filesUpload n => n
  | ApiCall.sessionStart n => n
  | ApiCall.sessionAppend n _ => n
  | ApiCall.sessionFinish n => n

/-- Total payload bytes carried by a list of remote calls. -/
def bytesSent : List ApiCall → Nat
  | [] => 0
  | c :: rest => chunkBytes c + bytesSent rest

/-- Whether a remote call is a files_upload_session_append_v2 call. -/
def isSessionAppend : ApiCall → Bool
  | ApiCall.sessionAppend _ _ => true
  | _ => false

/-- Number of files_upload_session_append_v2 calls in a list of remote calls. -/
def appendCount : List ApiCall → Nat
  | [] => 0
  | c :: rest => (if isSessionAppend c then 1 else 0) + appendCount rest

/-- Outcome of the remote files_download call, as distinguished by
download_master_file: success with the master bytes, an ApiError carrying the
two predicates the handler tests (e.error.is_path() and
e.error.get_path().is_not_found(), line 60), or any other exception. -/
inductive RemoteDownload where
  | ok (content : List Nat)
  | apiError (isPath : Bool) (pathNotFound : Bool)
  | otherException
deriving DecidableEq, Repr

/-- The two fatal outcomes of download_master_file: a re-raised ApiError
(line 64) or a re-raised unexpected exception (line 67). -/
inductive DownloadError where
  | apiError
  | unexpected
deriving DecidableEq, Repr

/-- Model of DropboxUploader.download_master_file (lines 51-67).  Success
writes the master locally and returns True (line 58); an ApiError whose error
is a path error reporting not-found returns False (lines 60-62, the absent
branch); every other ApiError and every other exception is re-raised
(lines 63-67). -/
def download_master_file : RemoteDownload → Except DownloadError Bool
  | RemoteDownload.ok _ => Except.ok true
  | RemoteDownload.apiError isPath nf =>
      if isPath && nf then Except.ok false else Except.error DownloadError.apiError
  | RemoteDownload.otherException => Except.error DownloadError.unexpected

/-- Python str.endswith, as a character-level suffix test. -/
def strEndsWith (s suf : String) : Bool := suf.data.isSuffixOf s.data

/-- Model of _make_arcname (lines 69-74): the entry name inside the master
tar, with a .tar.gz basename rewritten to .tgz (base[:-7] + ".tgz"). -/
def make_arcname (base : String) : String :=
  if strEndsWith base ".tar.gz" then base.dropRight 7 ++ ".tgz" else base

/-- Model of _convert_to_tgz_if_needed (lines 76-83): the path the artifact
file carries after the call; a .tar.gz file is renamed on disk via os.rename
to archive_file[:-7] + ".tgz" (line 80), anything else is untouched. -/
def convert_to_tgz_if_needed (archiveFile : String) : String :=
  if strEndsWith archiveFile ".tar.gz" then archiveFile.dropRight 7 ++ ".tgz" else archiveFile

/-- The local master file: either a fully written archive or the half-written
remains of an interrupted write. -/
inductive MasterFile where
  | complete (entries : List Entry)
  | halfWritten
deriving DecidableEq, Repr

/-- Local filesystem state seen by update_master_file: the on-disk name of the
input artifact, its content and stat metadata, and the file (if any) at the
canonical local master path MASTER_NAME. -/
structure LocalFs where
  artifactName : String
  artifactContent : List Nat
  artifactMode : Nat
  artifactMtime : Nat
  master : Option MasterFile
deriving DecidableEq, Repr

/-- The entry that new_tar.add(archive_file, arcname=arcname) (lines 114, 130)
stages into the rebuilt archive: the arcname computed at line 93 from the
possibly renamed artifact path, with the artifact bytes and its on-disk stat
metadata. -/
def staged_entry (s : LocalFs) : Entry :=
  ⟨make_arcname (convert_to_tgz_if_needed s.artifactName),
   s.artifactContent, s.artifactMode, s.artifactMtime⟩

/-- Which path the merge opens for writing: a scratch tempfile.mkstemp file
when the local master exists (line 97), the canonical MASTER_NAME itself when
it does not (line 128). -/
inductive WriteTarget where
  | scratch
  | canonical
deriving DecidableEq, Repr

/-- The write target chosen by the os.path.exists(MASTER_NAME) test at
line 96. -/
def mergeWriteTarget (masterExists : Bool) : WriteTarget :=
  if masterExists then WriteTarget.scratch else WriteTarget.canonical

/-- Filesystem-level model of update_master_file (lines 85-135).  The rename
of a .tar.gz artifact happens first (line 92) and is never undone.
failMidWrite models an exception raised while the new archive is being
written.  Existing-master branch (lines 96-125): the rebuild goes to the
scratch file, os.replace installs it under MASTER_NAME only on success
(line 117), and on failure the scratch file is removed and the master is
untouched (lines 121-125); a master that fails to parse raises at
tarfile.open (line 100) with the same cleanup.  Absent-master branch
(lines 126-135): tarfile.open(MASTER_NAME, w) writes the canonical name
directly, so an exception mid-write leaves a half-written file there (the
handler at lines 133-135 only logs and re-raises). -/
def update_master_file_fs (failMidWrite : Bool) (s : LocalFs) : LocalFs × Bool :=
  let s1 : LocalFs := { s with artifactName := convert_to_tgz_if_needed s.artifactName }
  match s.master with
  | some (MasterFile.complete old) =>
      if failMidWrite then (s1, false)
      else ({ s1 with
                master := some (MasterFile.complete (update_master_file (some old) (staged_entry s))) },
            true)
  | some MasterFile.halfWritten => (s1, false)
  | none =>
      if failMidWrite then ({ s1 with master := some MasterFile.halfWritten }, false)
      else ({ s1 with
                master := some (MasterFile.complete (update_master_file none (staged_entry s))) },
            true)

/-- An archive has no duplicated entry names. -/
def uniqueNames (a : List Entry) : Prop := (a.map Entry.name).Nodup

instance : DecidablePred uniqueNames :=
  fun a => inferInstanceAs (Decidable ((a.map Entry.name).Nodup))

/-- A local state with no master file, used to exhibit the bootstrap branch. -/
def fsBootstrap : LocalFs := ⟨"app.tgz", [90], 420, 1000, none⟩

theorem filter_idem {α : Type} (p : α → Bool) (l : List α) :
    (l.filter p).filter p = l.filter p := by
  induction l with
  | nil => rfl
  | cons a t ih =>
    cases h : p a with
    | true => simp [List.filter_cons, h, ih]
    | false => simp [List.filter_cons, h, ih]

theorem filter_ne_then_eq (x : String) (l : List Entry) :
    (l.filter fun m => m.name != x).filter (fun m => m.name == x) = [] := by
  induction l with
  | nil => rfl
  | cons a t ih =>
    by_cases h : a.name = x
    · simp [List.filter_cons, h, ih]
    · simp [List.filter_cons, h, ih]

theorem singleton_filter_ne (e : Entry) :
    ([e].filter fun m => m.name != e.name) = [] := by
  simp [List.filter_cons]

theorem singleton_filter_eq (e : Entry) :
    ([e].filter fun m => m.name == e.name) = [e] := by
  simp [List.filter_cons]

/-- The rebuilt archive leaves every entry whose name differs from the new
arcname exactly as it was in the old archive. -/
theorem merge_preserves_others (A : List Entry) (e : Entry) :
    (update_master_file (some A) e).filter (fun m => m.name != e.name)
      = A.filter (fun m => m.name != e.name) := by
  simp only [update_master_file, List.filter_append, filter_idem, singleton_filter_ne,
    List.append_nil]

/-- Rebuilding twice with the same staged entry produces the same archive as
rebuilding once. -/
theorem merge_idem (A : Option (List Entry)) (e : Entry) :
    update_master_file (some (update_master_file A e)) e = update_master_file A e := by
  cases A with
  | none =>
    simp [update_master_file, singleton_filter_ne]
  | some old =>
    simp only [update_master_file, List.filter_append, filter_idem, singleton_filter_ne,
      List.append_nil]

/-- The new arcname never occurs among the names of the copied-over entries. -/
theorem name_not_mem_filtered (e : Entry) (A : List Entry) :
    e.name ∉ (A.filter fun m => m.name != e.name).map Entry.name := by
  intro h
  rcases List.mem_map.mp h with ⟨m, hm, hname⟩
  rcases List.mem_filter.mp hm with ⟨-, hp⟩
  rw [bne_iff_ne] at hp
  exact hp hname

/-- Filtering cannot create duplicate names. -/
theorem nodup_filtered_names (A : List Entry) (p : Entry → Bool) (h : uniqueNames A) :
    ((A.filter p).map Entry.name).Nodup := by
  have hsub : (A.filter p).Sublist A := List.filter_sublist A
  exact (hsub.map Entry.name).nodup h

/-- C1: for every present existing archive, name and content, the merge
returns every entry of the existing archive except those named like the new
entry, plus exactly one entry with the new name carrying the new content; in
particular merging app.tgz with content z into a master holding old.tgz with
content x and app.tgz with content y yields old.tgz with x and app.tgz with z,
2 entries in total. -/
theorem C1_merge_replaces_entry (A : List Entry) (e : Entry) :
    ((update_master_file (some A) e).filter (fun m => m.name == e.name) = [e]) ∧
    ((update_master_file (some A) e).filter (fun m => m.name != e.name)
        = A.filter (fun m => m.name != e.name)) ∧
    (∀ (x y z : List Nat) (m1 t1 m2 t2 m3 t3 : Nat),
      update_master_file
          (some [⟨"old.tgz", x, m1, t1⟩, ⟨"app.tgz", y, m2, t2⟩]) ⟨"app.tgz", z, m3, t3⟩
        = [⟨"old.tgz", x, m1, t1⟩, ⟨"app.tgz", z, m3, t3⟩] ∧
      (update_master_file
          (some [⟨"old.tgz", x, m1, t1⟩, ⟨"app.tgz", y, m2, t2⟩]) ⟨"app.tgz", z, m3, t3⟩).length
        = 2) := by
  refine ⟨?_, merge_preserves_others A e, ?_⟩
  · simp only [update_master_file, List.filter_append, filter_ne_then_eq,
      singleton_filter_eq, List.nil_append]
  · intro x y z m1 t1 m2 t2 m3 t3
    have hb1 : (("old.tgz" : String) != "app.tgz") = true := by decide
    have hb2 : (("app.tgz" : String) != "app.tgz") = false := by decide
    constructor
    · simp [update_master_file, List.filter_cons, hb1, hb2]
    · simp [update_master_file, List.filter_cons, hb1, hb2]

/-- C5: the merge is idempotent: merging the same name and content twice in a
row (over any archive, or over the absent master) yields a structurally equal
archive: same entries, same contents, same order, same count. -/
theorem C5_merge_idempotent (A : Option (List Entry)) (e : Entry) :
    update_master_file (some (update_master_file A e)) e = update_master_file A e :=
  merge_idem A e

/-- C6: merging preserves the at-most-one-entry-per-name invariant for every
name, the bootstrap merge establishes it, and merging the same artifact twice
in succession yields the same entry count as merging it once. -/
theorem C6_uniqueness_invariant (A : List Entry) (e : Entry) :
    (uniqueNames A → uniqueNames (update_master_file (some A) e)) ∧
    uniqueNames (update_master_file none e) ∧
    (update_master_file (some (update_master_file (some A) e)) e).length
      = (update_master_file (some A) e).length := by
  refine ⟨?_, ?_, ?_⟩
  · intro h
    show ((update_master_file (some A) e).map Entry.name).Nodup
    simp only [update_master_file, List.map_append]
    refine List.Nodup.append ?_ ?_ ?_
    · exact nodup_filtered_names A _ h
    · simp
    · intro a ha hb
      simp only [List.map_cons, List.map_nil, List.mem_singleton] at hb
      subst hb
      exact name_not_mem_filtered e A ha
  · simp [uniqueNames, update_master_file]
  · rw [merge_idem]

/-- C7: every entry of the existing archive whose name differs from the merged
name keeps its content bytes, mode and modified time unchanged in the output
(entries are compared as whole records), and no other non-target entry
appears. -/
theorem C7_frame_preservation (A : List Entry) (e : Entry) :
    ((update_master_file (some A) e).filter (fun m => m.name != e.name)
        = A.filter (fun m => m.name != e.name)) ∧
    (∀ m, m ∈ A → m.name ≠ e.name → m ∈ update_master_file (some A) e) ∧
    (∀ m, m ∈ update_master_file (some A) e → m.name ≠ e.name → m ∈ A) := by
  refine ⟨merge_preserves_others A e, ?_, ?_⟩
  · intro m hm hne
    show m ∈ A.filter (fun m => m.name != e.name) ++ [e]
    exact List.mem_append_left _ (List.mem_filter.mpr ⟨hm, by simpa [bne_iff_ne] using hne⟩)
  · intro m hm hne
    have hm2 : m ∈ A.filter (fun m => m.name != e.name) ++ [e] := hm
    rcases List.mem_append.mp hm2 with h | h
    · exact (List.mem_filter.mp h).1
    · rw [List.mem_singleton] at h
      subst h
      exact absurd rfl hne

/-- Witness for C6 at a concrete two-name archive. -/
theorem C6_uniqueness_witness :
    uniqueNames (update_master_file (some [⟨"old.tgz", [1], 1, 1⟩]) ⟨"app.tgz", [2], 2, 2⟩) ∧
    (update_master_file
        (some (update_master_file (some [⟨"old.tgz", [1], 1, 1⟩]) ⟨"app.tgz", [2], 2, 2⟩))
        ⟨"app.tgz", [2], 2, 2⟩).length
      = (update_master_file (some [⟨"old.tgz", [1], 1, 1⟩]) ⟨"app.tgz", [2], 2, 2⟩).length := by
  have h := C6_uniqueness_invariant [⟨"old.tgz", [1], 1, 1⟩] ⟨"app.tgz", [2], 2, 2⟩
  exact ⟨h.1 (by decide), h.2.2⟩

/-- Witness for C7 at a concrete archive: the untouched entry survives with
all of its fields. -/
theorem C7_frame_witness :
    (⟨"old.tgz", [5], 1, 1⟩ : Entry)
      ∈ update_master_file (some [⟨"old.tgz", [5], 1, 1⟩]) ⟨"app.tgz", [6], 2, 2⟩ := by
  have h := C7_frame_preservation [⟨"old.tgz", [5], 1, 1⟩] ⟨"app.tgz", [6], 2, 2⟩
  exact h.2.1 ⟨"old.tgz", [5], 1, 1⟩ (by decide) (by decide)

theorem bytesSent_cons (c : ApiCall) (l : List ApiCall) :
    bytesSent (c :: l) = chunkBytes c + bytesSent l := rfl

/-- Had control reached the session loop, its appends and finish would account
for every byte of the file past the given offset. -/
theorem sessionLoop_bytes :
    ∀ (k fileSize offset : Nat), fileSize - offset ≤ k → offset < fileSize →
      bytesSent (sessionLoop fileSize offset) = fileSize - offset := by
  intro k
  induction k with
  | zero => intro fs off hle hlt; omega
  | succ k ih =>
    intro fs off hle hlt
    have hC : 0 < CHUNK_SIZE := by decide
    by_cases hb : fs - off ≤ CHUNK_SIZE
    · rw [sessionLoop, dif_pos hlt, if_pos hb]
      show chunkBytes (ApiCall.sessionFinish (fs - off)) + bytesSent [] = fs - off
      simp [chunkBytes, bytesSent]
    · rw [sessionLoop, dif_pos hlt, if_neg hb, bytesSent_cons]
      have hrec : bytesSent (sessionLoop fs (off + CHUNK_SIZE)) = fs - (off + CHUNK_SIZE) :=
        ih fs (off + CHUNK_SIZE) (by omega) (by omega)
      rw [hrec]
      show CHUNK_SIZE + (fs - (off + CHUNK_SIZE)) = fs - off
      omega

/-- C2 (code bug): upload_file can never report success.  The name datetime is
not bound by any import of the module, so the client_modified argument at
line 155 raises NameError before the single put is issued; the handler at
lines 179-181 turns this into a False return on every input, including the
small-payload case of scenario A (a 100-byte master). -/
theorem C2_upload_never_succeeds :
    nameInScope "datetime" = false ∧
    upload_file 100 = ([], false) ∧
    (∀ n : Nat, (upload_file n).2 = false) := by
  refine ⟨by decide, by decide, ?_⟩
  have hd : nameInScope "datetime" = false := by decide
  intro n
  unfold upload_file
  cases upload_path n <;> simp [hd]

/-- C3 (code bug): on a payload of 2 * CHUNK_SIZE + 1 bytes the session path
sends only the start chunk of CHUNK_SIZE bytes and performs zero append
calls, then fails: the CommitInfo construction at lines 162-165 raises
NameError (datetime unbound) before the loop runs.  The claim asks for all
bytes to be sent and one append at this size. -/
theorem C3_session_accounting_fails :
    upload_file (2 * CHUNK_SIZE + 1) = ([ApiCall.sessionStart CHUNK_SIZE], false) ∧
    bytesSent (upload_file (2 * CHUNK_SIZE + 1)).1 = CHUNK_SIZE ∧
    CHUNK_SIZE ≠ 2 * CHUNK_SIZE + 1 ∧
    appendCount (upload_file (2 * CHUNK_SIZE + 1)).1 = 0 ∧
    (2 * CHUNK_SIZE + 1 - CHUNK_SIZE) / CHUNK_SIZE = 1 := by
  refine ⟨by decide, by decide, by decide, by decide, by decide⟩

/-- C4: the dispatch at line 150 is inclusive on the single-shot side: a
payload of exactly CHUNK_SIZE bytes goes to the single whole-object put, one
of CHUNK_SIZE + 1 bytes to the session protocol, and in general the
single-shot path is chosen exactly for sizes at most CHUNK_SIZE. -/
theorem C4_threshold_boundary :
    upload_path CHUNK_SIZE = UploadPath.singleShot ∧
    upload_path (CHUNK_SIZE + 1) = UploadPath.session ∧
    (∀ n : Nat, upload_path n = UploadPath.singleShot ↔ n ≤ CHUNK_SIZE) := by
  refine ⟨by decide, by decide, ?_⟩
  intro n
  unfold upload_path
  by_cases h : n ≤ CHUNK_SIZE
  · simp [h]
  · simp [h]

/-- Witness for C4 at a concrete small size. -/
theorem C4_threshold_witness : upload_path 5 = UploadPath.singleShot :=
  (C4_threshold_boundary.2.2 5).mpr (by decide)

/-- C9: a download failure that is a path error reporting not-found yields the
non-error absent result False, after which the merge bootstrap creates a fresh
single-entry master; every other ApiError and every unexpected exception is
re-raised to the caller. -/
theorem C9_notfound_classification :
    (∀ r : RemoteDownload,
        download_master_file r = Except.ok false ↔ r = RemoteDownload.apiError true true) ∧
    (∀ ip nf : Bool, (ip && nf) = false →
        download_master_file (RemoteDownload.apiError ip nf)
          = Except.error DownloadError.apiError) ∧
    (download_master_file RemoteDownload.otherException
        = Except.error DownloadError.unexpected) ∧
    (∀ c, download_master_file (RemoteDownload.ok c) = Except.ok true) ∧
    (∀ s : LocalFs, s.master = none →
        (update_master_file_fs false s).2 = true ∧
        (update_master_file_fs false s).1.master
          = some (MasterFile.complete [staged_entry s])) := by
  refine ⟨?_, ?_, rfl, fun c => rfl, ?_⟩
  · intro r
    cases r with
    | ok c => simp [download_master_file]
    | apiError ip nf => cases ip <;> cases nf <;> simp [download_master_file]
    | otherException => simp [download_master_file]
  · intro ip nf h
    cases ip <;> cases nf <;> simp_all [download_master_file]
  · intro s h
    constructor
    · simp [update_master_file_fs, h]
    · simp [update_master_file_fs, h, update_master_file]

/-- Witness for C9: the not-found outcome, a permission-style ApiError, and
the bootstrap on a concrete absent-master state. -/
theorem C9_notfound_witness :
    download_master_file (RemoteDownload.apiError true true) = Except.ok false ∧
    download_master_file (RemoteDownload.apiError true false)
      = Except.error DownloadError.apiError ∧
    (update_master_file_fs false fsBootstrap).1.master
      = some (MasterFile.complete [⟨"app.tgz", [90], 420, 1000⟩]) := by
  refine ⟨(C9_notfound_classification.1 _).mpr rfl,
          C9_notfound_classification.2.1 true false (by decide), ?_⟩
  have h := C9_notfound_classification.2.2.2.2 fsBootstrap rfl
  exact h.2.trans (by decide)

/-- C10 (implicit): a .tar.gz artifact is renamed on disk to the .tgz name at
the start of the merge (line 92), and the rename is still in place whatever
happens afterwards: for every master state and whether or not the rebuild
fails, the artifact ends the merge under the .tgz name, and no error path
restores the original name (upload_file, modelled above, touches no local
file besides reading the master). -/
theorem C10_rename_persists (fail : Bool) (s : LocalFs)
    (h : strEndsWith s.artifactName ".tar.gz" = true) :
    (update_master_file_fs fail s).1.artifactName
      = s.artifactName.dropRight 7 ++ ".tgz" := by
  cases hm : s.master with
  | none => cases fail <;> simp [update_master_file_fs, convert_to_tgz_if_needed, h, hm]
  | some mf =>
    cases mf <;> cases fail <;>
      simp [update_master_file_fs, convert_to_tgz_if_needed, h, hm]

/-- Witness for C10: a failing merge over an absent master still leaves
app.tar.gz renamed to app.tgz. -/
theorem C10_rename_witness :
    (update_master_file_fs true ⟨"app.tar.gz", [1], 420, 1000, none⟩).1.artifactName
      = "app.tgz" := by
  have h := C10_rename_persists true ⟨"app.tar.gz", [1], 420, 1000, none⟩ (by decide)
  exact h.trans (by decide)

/-- C8 counterexample: the claim says every merge, including the absent-master
bootstrap, writes to a scratch path and never exposes a partial archive under
the canonical local name.  But the bootstrap branch opens MASTER_NAME itself
for writing (line 128), so a merge that fails mid-write over an absent master
leaves a half-written file visible at the canonical name, changing the master
state. -/
theorem C8_counterexample_bootstrap :
    fsBootstrap.master = none ∧
    (update_master_file_fs true fsBootstrap).2 = false ∧
    (update_master_file_fs true fsBootstrap).1.master = some MasterFile.halfWritten ∧
    mergeWriteTarget false = WriteTarget.canonical := by
  decide

/-- C8 as amended: when a local master exists, the rebuild is written to a
scratch file and installed under the canonical name only on full success, any
failure leaves the previous master byte-for-byte unchanged, and success
installs exactly the rebuilt archive. -/
theorem C8_scratch_swap_existing (fail : Bool) (s : LocalFs) (h : s.master ≠ none) :
    mergeWriteTarget true = WriteTarget.scratch ∧
    ((update_master_file_fs fail s).2 = false →
        (update_master_file_fs fail s).1.master = s.master) ∧
    ((update_master_file_fs fail s).2 = true →
        ∃ old, s.master = some (MasterFile.complete old) ∧
          (update_master_file_fs fail s).1.master
            = some (MasterFile.complete (update_master_file (some old) (staged_entry s)))) := by
  rcases hm : s.master with _ | mf
  · exact absurd hm h
  · cases mf with
    | complete old => cases fail <;> simp [update_master_file_fs, mergeWriteTarget, hm]
    | halfWritten => simp [update_master_file_fs, mergeWriteTarget, hm]

/-- Witness for the amended C8: a failing rebuild over a concrete one-entry
master leaves that master unchanged. -/
theorem C8_scratch_swap_witness :
    (update_master_file_fs true
        ⟨"b.tgz", [7], 420, 5, some (MasterFile.complete [⟨"a.tgz", [1], 1, 1⟩])⟩).1.master
      = some (MasterFile.complete [⟨"a.tgz", [1], 1, 1⟩]) := by
  have h := C8_scratch_swap_existing true
    ⟨"b.tgz", [7], 420, 5, some (MasterFile.complete [⟨"a.tgz", [1], 1, 1⟩])⟩ (by decide)
  exact h.2.1 (by decide)

end SplunkUpload
